import Mathlib

/-!
Shallow embedding of `pixelmatch-dirs.go` (repository arisawa/pixelmatch-dirs).

The program is a batch driver: it scans a source directory for `.png` files,
pairs each with a same-named file in a target directory, stages copies in a
`tmp` workspace, invokes an external docker comparator per pair, classifies
the tri-state exit code (0 / 65 / 66), and renders a report.

Go strings are modelled as `List Char` so that the exact splitting and
trimming behaviour of the Go standard library calls used by the source
(`strings.Split`, `strings.TrimSpace`, `strings.HasSuffix`,
`filepath.Join`) can be reproduced and reasoned about.  The filesystem is
modelled as the list of existing paths; the external comparator, `docker`
lookup, `strconv.ParseFloat`, `os.Stat` and I/O-level failures of
`os.Remove`/`os.Rename` are oracles supplied as parameters, since those are
external collaborators of the repository.
-/

/-- Go strings, as lists of characters. -/
abbrev GoString := List Char

/-- Convert a Lean string literal to the `GoString` model. -/
def gs (s : String) : GoString := s.toList

/-- Model of `strings.Split(s, sep)` for a one-character separator, as used at
`pixelmatch-dirs.go:40-42`.  Splitting the empty string yields `[""]`,
matching Go. -/
def goSplit (sep : Char) : GoString → List GoString
  | [] => [[]]
  | c :: cs =>
    match goSplit sep cs with
    | [] => [[]]
    | h :: t => if c = sep then [] :: h :: t else (c :: h) :: t

/-- Model of `strings.TrimSpace`: drop leading and trailing whitespace. -/
def goTrimSpace (s : GoString) : GoString :=
  ((s.dropWhile Char.isWhitespace).reverse.dropWhile Char.isWhitespace).reverse

/-- Model of `strings.HasSuffix(s, suffix)`. -/
def goHasSuffix (sfx s : GoString) : Bool := List.isSuffixOf sfx s

/-- Model of `filepath.Join` for the two-component, well-formed paths used by the
source (`filepath.Join(dir, name)`). -/
def goJoin (dir name : GoString) : GoString := dir ++ '/' :: name

/-- The constants of `pixelmatch-dirs.go:16-30`. -/
def exitCodeDifferentDimension : Nat := 65

def exitCodeDifferentPixels : Nat := 66

def defaultThreshold : GoString := gs "0.015"

def defaultSrcDir : GoString := gs "src"

def defaultTargetDir : GoString := gs "target"

def tmpDir : GoString := gs "tmp"

/-- The `diffPixel` record of `pixelmatch-dirs.go:32-36`. -/
structure DiffPixel where
  file : GoString
  pixels : GoString
  error : GoString
deriving DecidableEq, Repr

/-- The function `newDiffPixel` (`pixelmatch-dirs.go:38-48`).  The Go function indexes
`lines[1]`, `lines[2]` and element `[1]` of each colon split without bounds
checks; in this total embedding an out-of-range index returns `none`
(the Go original panics there). -/
def newDiffPixel (fileName pixelmatchOut : GoString) : Option DiffPixel :=
  let lines := goSplit '\n' pixelmatchOut
  match lines.get? 1, lines.get? 2 with
  | some line1, some line2 =>
    match (goSplit ':' line1).get? 1, (goSplit ':' line2).get? 1 with
    | some p, some e =>
      some { file := fileName, pixels := goTrimSpace p, error := goTrimSpace e }
    | _, _ => none
  | _, _ => none

/-- The run configuration fixed at startup (`threshold`, `srcDir`,
`targetDir` globals of `pixelmatch-dirs.go:21-27`). -/
structure Config where
  threshold : GoString
  srcDir : GoString
  targetDir : GoString
deriving DecidableEq, Repr

/-- Argument parsing of `pixelmatch-dirs.go:68-76`.  `flag.Arg(i)` returns
the empty string when fewer than `i+1` positional arguments are present.
Note that the source reads `flag.Arg(1)` for BOTH `srcDir` and `targetDir`
(line 74 of the source); the embedding reproduces that. -/
def parseArgs (args : List GoString) : Config :=
  let arg : Nat → GoString := fun i => (args.get? i).getD []
  let threshold := if arg 0 = [] then defaultThreshold else arg 0
  let srcDir := if arg 1 = [] then defaultSrcDir else arg 1
  let targetDir := if arg 1 = [] then defaultTargetDir else arg 1
  { threshold := threshold, srcDir := srcDir, targetDir := targetDir }

/-- The `log.Fatalf` / panic sites of the program, one constructor per
abort site. -/
inductive Fatal where
  | dockerMissing
  | thresholdError
  | srcDirError
  | srcNotDir
  | targetDirError
  | targetNotDir
  | tmpDirError
  | readDirError
  | fileRemove
  | fileMove
  | cmdExec
  | indexOutOfRange
  | tmpSrcRemove
  | tmpTargetRemove
deriving DecidableEq, Repr

/-- Oracle for the I/O-level outcome of `os.Remove` and `os.Rename` on a
given path: `true` means the operating system rejects the operation
(permissions, etc.), an external failure mode of the filesystem
primitives. -/
structure FsEnv where
  removeFails : GoString → Bool
  renameFails : GoString → Bool

/-- Observable behaviour of one comparator subprocess invocation
(`cmd.CombinedOutput()` at `pixelmatch-dirs.go:121`): `exit = none` models
a launch failure (no exit status), `output` the combined output text, and
`writesDiff` whether the tool wrote the diff artifact at the transient
diff path. -/
structure ToolBehavior where
  exit : Option Nat
  output : GoString
  writesDiff : Bool

/-- Model of `ioutil.WriteFile`: after the write the path exists. -/
def fsWrite (p : GoString) (fs : List GoString) : List GoString :=
  if p ∈ fs then fs else p :: fs

/-- Model of `os.Remove`: fails (returns `none`) when the OS rejects the removal or
when the path does not exist (`ENOENT`); otherwise the path is gone. -/
def osRemove (env : FsEnv) (p : GoString) (fs : List GoString) :
    Option (List GoString) :=
  if env.removeFails p then none
  else if p ∈ fs then some (fs.filter (fun q => q ≠ p)) else none

/-- Model of `os.Rename`: fails when the OS rejects it or the source path does not
exist; otherwise the source path is gone and the destination exists. -/
def osRename (env : FsEnv) (src dst : GoString) (fs : List GoString) :
    Option (List GoString) :=
  if env.renameFails src then none
  else if src ∈ fs then some (fsWrite dst (fs.filter (fun q => q ≠ src)))
  else none

/-- Transient source copy path `tmp/src-<name>` (`pixelmatch-dirs.go:101`). -/
def tmpSrcPath (fileName : GoString) : GoString :=
  goJoin tmpDir (gs "src-" ++ fileName)

/-- Transient target copy path `tmp/target-<name>`
(`pixelmatch-dirs.go:102`). -/
def tmpTargetPath (fileName : GoString) : GoString :=
  goJoin tmpDir (gs "target-" ++ fileName)

/-- Stable diff artifact name `diff-<name>`, relative to the working
directory (`pixelmatch-dirs.go:107`). -/
def diffStableName (fileName : GoString) : GoString := gs "diff-" ++ fileName

/-- Transient diff artifact path `tmp/diff-<name>`
(`pixelmatch-dirs.go:108`). -/
def diffTmpPath (fileName : GoString) : GoString :=
  goJoin tmpDir (diffStableName fileName)

/-- The progress line `check <srcDir>/<name>` printed at
`pixelmatch-dirs.go:110`. -/
def checkLine (cfg : Config) (fileName : GoString) : GoString :=
  gs "check " ++ goJoin cfg.srcDir fileName

/-- The mutable state of the scan loop: the filesystem, the two accumulator
lists of `pixelmatch-dirs.go:81-82`, plus two observables — the sequence of
comparator invocations made and the lines printed to standard output. -/
structure ScanState where
  fs : List GoString
  diffDimensions : List GoString
  diffPixels : List DiffPixel
  invocations : List GoString
  stdout : List GoString

/-- Removal of both transient copies after the comparator has run
(`pixelmatch-dirs.go:143-148`); each removal failure is fatal. -/
def cleanup (env : FsEnv) (fileName : GoString) (st : ScanState) :
    ScanState × Option Fatal :=
  match osRemove env (tmpSrcPath fileName) st.fs with
  | none => (st, some Fatal.tmpSrcRemove)
  | some fs1 =>
    match osRemove env (tmpTargetPath fileName) fs1 with
    | none => ({ st with fs := fs1 }, some Fatal.tmpTargetRemove)
    | some fs2 => ({ st with fs := fs2 }, none)

/-- The body of the scan loop for one pair that passed both filters
(`pixelmatch-dirs.go:101-148`): stage the two copies, print the progress
line, invoke the comparator, dispatch on the exit status, and clean up the
transient copies.  `tb` is the comparator's behaviour for this pair.
A launch failure (`exit = none`) reaches the `default` arm's fatal abort,
as does any exit code other than 0, 65, 66. -/
def processPair (cfg : Config) (env : FsEnv) (tb : ToolBehavior)
    (fileName : GoString) (st : ScanState) : ScanState × Option Fatal :=
  let fs0 := fsWrite (tmpTargetPath fileName) (fsWrite (tmpSrcPath fileName) st.fs)
  let fs1 := if tb.writesDiff then fsWrite (diffTmpPath fileName) fs0 else fs0
  let st1 : ScanState :=
    { st with
      fs := fs1
      stdout := st.stdout ++ [checkLine cfg fileName]
      invocations := st.invocations ++ [fileName] }
  match tb.exit with
  | some 0 =>
    match osRemove env (diffTmpPath fileName) st1.fs with
    | none => (st1, some Fatal.fileRemove)
    | some fs2 => cleanup env fileName { st1 with fs := fs2 }
  | some 65 =>
    cleanup env fileName
      { st1 with diffDimensions := st1.diffDimensions ++ [fileName] }
  | some 66 =>
    match newDiffPixel fileName tb.output with
    | none => (st1, some Fatal.indexOutOfRange)
    | some dp =>
      let st2 := { st1 with diffPixels := st1.diffPixels ++ [dp] }
      match osRename env (diffTmpPath fileName) (diffStableName fileName) st2.fs with
      | none => (st2, some Fatal.fileMove)
      | some fs2 => cleanup env fileName { st2 with fs := fs2 }
  | some _ => (st1, some Fatal.cmdExec)
  | none => (st1, some Fatal.cmdExec)

/-- The scan loop over the source directory listing
(`pixelmatch-dirs.go:88-149`): entries whose name does not end in `.png`,
or with no same-named target file (`targetHas`), are skipped silently;
every other entry is processed by `processPair`, and a fatal outcome stops
the loop. -/
def runScan (cfg : Config) (env : FsEnv) (toolFor : GoString → ToolBehavior)
    (targetHas : GoString → Bool) :
    List GoString → ScanState → ScanState × Option Fatal
  | [], st => (st, none)
  | f :: rest, st =>
    if goHasSuffix (gs ".png") f = false then
      runScan cfg env toolFor targetHas rest st
    else if targetHas f = false then
      runScan cfg env toolFor targetHas rest st
    else
      match processPair cfg env (toolFor f) f st with
      | (st1, none) => runScan cfg env toolFor targetHas rest st1
      | (st1, some e) => (st1, some e)

/-- Oracles for the startup checks: `exec.LookPath("docker")`,
`strconv.ParseFloat(threshold, 32)` success, `os.Stat` on a path
(`none` = stat error, `some b` with `b` = is-a-directory), and success of
`checkTmpDir`. -/
structure ValidateEnv where
  dockerFound : Bool
  parseFloatOk : GoString → Bool
  statIsDir : GoString → Option Bool
  tmpDirOk : Bool

/-- The function `validate` (`pixelmatch-dirs.go:168-191`): docker lookup, threshold
parseability (no range check), then both directory checks, in that order;
the first failure is fatal. -/
def validate (venv : ValidateEnv) (cfg : Config) : Option Fatal :=
  if venv.dockerFound = false then some Fatal.dockerMissing
  else if venv.parseFloatOk cfg.threshold = false then some Fatal.thresholdError
  else
    match venv.statIsDir cfg.srcDir with
    | none => some Fatal.srcDirError
    | some false => some Fatal.srcNotDir
    | some true =>
      match venv.statIsDir cfg.targetDir with
      | none => some Fatal.targetDirError
      | some false => some Fatal.targetNotDir
      | some true => none

/-- Initial scan state over an initial filesystem. -/
def initState (fs0 : List GoString) : ScanState :=
  { fs := fs0, diffDimensions := [], diffPixels := [], invocations := [],
    stdout := [] }

/-- The function `main` up to the end of the scan loop (`pixelmatch-dirs.go:50-149`):
parse arguments, validate, check the tmp directory, read the source
directory listing (`listing = none` models a `ReadDir` error), then scan.
The resulting state and fatal status feed the report stage. -/
def runMain (venv : ValidateEnv) (env : FsEnv)
    (toolFor : GoString → ToolBehavior) (targetHas : GoString → Bool)
    (listing : Option (List GoString)) (fs0 : List GoString)
    (args : List GoString) : ScanState × Option Fatal :=
  let cfg := parseArgs args
  match validate venv cfg with
  | some e => (initState fs0, some e)
  | none =>
    if venv.tmpDirOk = false then (initState fs0, some Fatal.tmpDirError)
    else
      match listing with
      | none => (initState fs0, some Fatal.readDirError)
      | some files => runScan cfg env toolFor targetHas files (initState fs0)

/-- Header line of the dimension-mismatch report section
(`pixelmatch-dirs.go:152`). -/
def dimHeader : GoString := gs "-- dimensions do not match --"

/-- Header line of the pixel-mismatch report section
(`pixelmatch-dirs.go:159`). -/
def pixHeader : GoString := gs "-- Different pixels are found --"

/-- The row written to the tabwriter for one pixel-mismatch record
(`pixelmatch-dirs.go:162`): file name, pixel count, error rate, separated
by tab stops. -/
def pixRow (dp : DiffPixel) : GoString :=
  dp.file ++ '\t' :: dp.pixels ++ '\t' :: dp.error

/-- The report renderer (`pixelmatch-dirs.go:151-165`): each section is
printed exactly when its list is non-empty, dimension mismatches first,
each list in insertion order. -/
def renderReport (dims : List GoString) (pixels : List DiffPixel) :
    List GoString :=
  (if 0 < dims.length then dimHeader :: dims else []) ++
    (if 0 < pixels.length then pixHeader :: pixels.map pixRow else [])

/-- Whole-program observable: the lines printed to standard output and the
fatal status.  On a fatal abort (`log.Fatalf`) nothing further is printed
to standard output; the report is rendered only after a completed scan. -/
def mainOutput (venv : ValidateEnv) (env : FsEnv)
    (toolFor : GoString → ToolBehavior) (targetHas : GoString → Bool)
    (listing : Option (List GoString)) (fs0 : List GoString)
    (args : List GoString) : List GoString × Option Fatal :=
  match runMain venv env toolFor targetHas listing fs0 args with
  | (st, none) =>
    (st.stdout ++ renderReport st.diffDimensions st.diffPixels, none)
  | (st, some e) => (st.stdout, some e)

/-- Failure-free I/O environment: the OS rejects no removal or rename. -/
def envOk : FsEnv := { removeFails := fun _ => false, renameFails := fun _ => false }

/-- A well-formed exit-66 comparator output, as in the spec's example. -/
def goodOut : GoString := gs "header\npixels: 1234\nerror: 0.042\n"

/-- Comparator behaviour: identical images (exit 0, diff artifact written). -/
def tbIdentical : ToolBehavior := { exit := some 0, output := [], writesDiff := true }

/-- Comparator behaviour: exit 0 with no diff artifact written. -/
def tbIdenticalNoDiff : ToolBehavior := { exit := some 0, output := [], writesDiff := false }

/-- Comparator behaviour: dimension mismatch (exit 65). -/
def tbDim : ToolBehavior := { exit := some 65, output := [], writesDiff := false }

/-- Comparator behaviour: pixel mismatch (exit 66, diff written, parsable output). -/
def tbPix : ToolBehavior := { exit := some 66, output := goodOut, writesDiff := true }

/-- Comparator behaviour: unexpected exit code 1. -/
def tbBad : ToolBehavior := { exit := some 1, output := gs "oops", writesDiff := false }

/-- A validation environment in which every startup check passes. -/
def venvOk : ValidateEnv :=
  { dockerFound := true, parseFloatOk := fun _ => true,
    statIsDir := fun _ => some true, tmpDirOk := true }

/-- A validation environment in which `strconv.ParseFloat` fails on every
threshold string. -/
def venvNoParse : ValidateEnv :=
  { dockerFound := true, parseFloatOk := fun _ => false,
    statIsDir := fun _ => some true, tmpDirOk := true }

/-- The filter condition of the scan loop (`pixelmatch-dirs.go:90-99`): a
source entry is compared exactly when its name ends in `.png` and a
same-named target file exists. -/
def comparedPred (targetHas : GoString → Bool) (f : GoString) : Bool :=
  goHasSuffix (gs ".png") f && targetHas f

example : newDiffPixel (gs "a.png") (gs "header\npixels: 1234\nerror: 0.042\n") =
    some { file := gs "a.png", pixels := gs "1234", error := gs "0.042" } := by decide

example : parseArgs [gs "0.015", gs "a", gs "b"] =
    { threshold := gs "0.015", srcDir := gs "a", targetDir := gs "a" } := by decide

example : parseArgs [] =
    { threshold := defaultThreshold, srcDir := defaultSrcDir,
      targetDir := defaultTargetDir } := by decide

example :
    (processPair (parseArgs []) envOk tbPix (gs "a.png") (initState [])).2 = none := by
  decide

example :
    (processPair (parseArgs []) envOk tbPix (gs "a.png") (initState [])).1.fs =
      [diffStableName (gs "a.png")] := by decide

example :
    (processPair (parseArgs []) envOk tbIdenticalNoDiff (gs "a.png") (initState [])).2 =
      some Fatal.fileRemove := by decide

example :
    (runScan (parseArgs []) envOk (fun _ => tbIdentical) (fun _ => true)
        [gs "a.png", gs "b.txt"] (initState [])).1.invocations = [gs "a.png"] := by
  decide

/-! ### Helper lemmas: path disequalities -/

theorem tmpSrc_ne_tmpTarget (f g : GoString) : tmpSrcPath f ≠ tmpTargetPath g := by
  intro h
  have h4 : (some 's' : Option Char) = some 't' :=
    congrArg (fun l => List.get? l 4) h
  exact absurd h4 (by decide)

theorem diffTmp_ne_tmpSrc (f g : GoString) : diffTmpPath f ≠ tmpSrcPath g := by
  intro h
  have h4 : (some 'd' : Option Char) = some 's' :=
    congrArg (fun l => List.get? l 4) h
  exact absurd h4 (by decide)

theorem diffTmp_ne_tmpTarget (f g : GoString) : diffTmpPath f ≠ tmpTargetPath g := by
  intro h
  have h4 : (some 'd' : Option Char) = some 't' :=
    congrArg (fun l => List.get? l 4) h
  exact absurd h4 (by decide)

theorem diffStable_ne_tmpSrc (f g : GoString) : diffStableName f ≠ tmpSrcPath g := by
  intro h
  have h0 : (some 'd' : Option Char) = some 't' :=
    congrArg (fun l => List.get? l 0) h
  exact absurd h0 (by decide)

theorem diffStable_ne_tmpTarget (f g : GoString) : diffStableName f ≠ tmpTargetPath g := by
  intro h
  have h0 : (some 'd' : Option Char) = some 't' :=
    congrArg (fun l => List.get? l 0) h
  exact absurd h0 (by decide)

theorem diffStable_ne_diffTmp (f g : GoString) : diffStableName f ≠ diffTmpPath g := by
  intro h
  have h0 : (some 'd' : Option Char) = some 't' :=
    congrArg (fun l => List.get? l 0) h
  exact absurd h0 (by decide)

theorem checkLine_ne_dimHeader (cfg : Config) (f : GoString) :
    checkLine cfg f ≠ dimHeader := by
  intro h
  have h0 : (some 'c' : Option Char) = some '-' :=
    congrArg (fun l => List.get? l 0) h
  exact absurd h0 (by decide)

theorem checkLine_ne_pixHeader (cfg : Config) (f : GoString) :
    checkLine cfg f ≠ pixHeader := by
  intro h
  have h0 : (some 'c' : Option Char) = some '-' :=
    congrArg (fun l => List.get? l 0) h
  exact absurd h0 (by decide)

/-! ### Helper lemmas: filesystem operations -/

theorem mem_fsWrite {x p : GoString} {fs : List GoString} :
    x ∈ fsWrite p fs ↔ x = p ∨ x ∈ fs := by
  unfold fsWrite
  split
  · rename_i hp
    constructor
    · exact fun h => Or.inr h
    · rintro (rfl | h)
      · exact hp
      · exact h
  · simp [List.mem_cons]

theorem self_mem_fsWrite (p : GoString) (fs : List GoString) : p ∈ fsWrite p fs :=
  mem_fsWrite.mpr (Or.inl rfl)

theorem osRemove_eq_some {env : FsEnv} {p : GoString} {fs fs' : List GoString}
    (h : osRemove env p fs = some fs') :
    env.removeFails p = false ∧ p ∈ fs ∧ fs' = fs.filter (fun q => q ≠ p) := by
  unfold osRemove at h
  split at h
  · exact absurd h (by simp)
  · rename_i hrf
    split at h
    · rename_i hp
      exact ⟨by simpa using hrf, hp, by simpa using h.symm⟩
    · exact absurd h (by simp)

theorem osRemove_some_of {env : FsEnv} {p : GoString} {fs : List GoString}
    (hrf : env.removeFails p = false) (hp : p ∈ fs) :
    osRemove env p fs = some (fs.filter (fun q => q ≠ p)) := by
  unfold osRemove
  simp [hrf, hp]

theorem not_mem_of_osRemove {env : FsEnv} {p : GoString} {fs fs' : List GoString}
    (h : osRemove env p fs = some fs') : p ∉ fs' := by
  rcases osRemove_eq_some h with ⟨-, -, rfl⟩
  simp

theorem mem_osRemove_of_mem {env : FsEnv} {p x : GoString} {fs fs' : List GoString}
    (h : osRemove env p fs = some fs') (hx : x ∈ fs) (hne : x ≠ p) : x ∈ fs' := by
  rcases osRemove_eq_some h with ⟨-, -, rfl⟩
  simp [hx, hne]

theorem mem_of_mem_osRemove {env : FsEnv} {p x : GoString} {fs fs' : List GoString}
    (h : osRemove env p fs = some fs') (hx : x ∈ fs') : x ∈ fs := by
  rcases osRemove_eq_some h with ⟨-, -, rfl⟩
  exact (List.mem_filter.mp hx).1

theorem osRename_eq_some {env : FsEnv} {src dst : GoString} {fs fs' : List GoString}
    (h : osRename env src dst fs = some fs') :
    env.renameFails src = false ∧ src ∈ fs ∧
      fs' = fsWrite dst (fs.filter (fun q => q ≠ src)) := by
  unfold osRename at h
  split at h
  · exact absurd h (by simp)
  · rename_i hrf
    split at h
    · rename_i hp
      exact ⟨by simpa using hrf, hp, by simpa using h.symm⟩
    · exact absurd h (by simp)

/-! ### Helper lemmas: cleanup -/

theorem cleanup_diffDimensions (env : FsEnv) (f : GoString) (st : ScanState) :
    (cleanup env f st).1.diffDimensions = st.diffDimensions := by
  unfold cleanup
  split
  · rfl
  · split <;> rfl

theorem cleanup_diffPixels (env : FsEnv) (f : GoString) (st : ScanState) :
    (cleanup env f st).1.diffPixels = st.diffPixels := by
  unfold cleanup
  split
  · rfl
  · split <;> rfl

theorem cleanup_invocations (env : FsEnv) (f : GoString) (st : ScanState) :
    (cleanup env f st).1.invocations = st.invocations := by
  unfold cleanup
  split
  · rfl
  · split <;> rfl

theorem cleanup_stdout (env : FsEnv) (f : GoString) (st : ScanState) :
    (cleanup env f st).1.stdout = st.stdout := by
  unfold cleanup
  split
  · rfl
  · split <;> rfl

theorem cleanup_fs_sub {env : FsEnv} {f x : GoString} {st : ScanState}
    (hx : x ∈ (cleanup env f st).1.fs) : x ∈ st.fs := by
  unfold cleanup at hx
  split at hx
  · exact hx
  · rename_i fs1 h1
    split at hx
    · exact mem_of_mem_osRemove h1 hx
    · rename_i fs2 h2
      exact mem_of_mem_osRemove h1 (mem_of_mem_osRemove h2 hx)

theorem cleanup_ok {env : FsEnv} {f : GoString} {st : ScanState}
    (h : (cleanup env f st).2 = none) :
    tmpSrcPath f ∉ (cleanup env f st).1.fs ∧
      tmpTargetPath f ∉ (cleanup env f st).1.fs ∧
      env.removeFails (tmpSrcPath f) = false ∧
      env.removeFails (tmpTargetPath f) = false := by
  unfold cleanup at h ⊢
  split at h
  · exact absurd h (by simp)
  · rename_i fs1 h1
    split at h
    · exact absurd h (by simp)
    · rename_i fs2 h2
      refine ⟨?_, ?_, (osRemove_eq_some h1).1, (osRemove_eq_some h2).1⟩
      · simp only [h1, h2]
        intro hmem
        exact not_mem_of_osRemove h1 (mem_of_mem_osRemove h2 hmem)
      · simp only [h1, h2]
        exact not_mem_of_osRemove h2

theorem cleanup_ok_of {env : FsEnv} {f : GoString} {st : ScanState}
    (h1 : env.removeFails (tmpSrcPath f) = false)
    (h2 : env.removeFails (tmpTargetPath f) = false)
    (hm1 : tmpSrcPath f ∈ st.fs) (hm2 : tmpTargetPath f ∈ st.fs) :
    (cleanup env f st).2 = none := by
  unfold cleanup
  rw [osRemove_some_of h1 hm1]
  have hm2' : tmpTargetPath f ∈ st.fs.filter (fun q => q ≠ tmpSrcPath f) := by
    simp [hm2, (tmpSrc_ne_tmpTarget f f).symm]
  dsimp only
  rw [osRemove_some_of h2 hm2']

theorem cleanup_fs_mem {env : FsEnv} {f x : GoString} {st : ScanState}
    (hx : x ∈ st.fs) (hne1 : x ≠ tmpSrcPath f) (hne2 : x ≠ tmpTargetPath f)
    (h : (cleanup env f st).2 = none) : x ∈ (cleanup env f st).1.fs := by
  unfold cleanup at h ⊢
  split at h
  · exact absurd h (by simp)
  · rename_i fs1 h1
    split at h
    · exact absurd h (by simp)
    · rename_i fs2 h2
      simp only [h1, h2]
      exact mem_osRemove_of_mem h2 (mem_osRemove_of_mem h1 hx hne1) hne2

/-! ### Helper lemmas: newDiffPixel and processPair -/

theorem newDiffPixel_file {f out : GoString} {dp : DiffPixel}
    (h : newDiffPixel f out = some dp) : dp.file = f := by
  simp only [newDiffPixel] at h
  split at h
  · split at h
    · have h2 := Option.some.inj h
      subst h2
      rfl
    · simp at h
  · simp at h

theorem processPair_invocations (cfg : Config) (env : FsEnv) (tb : ToolBehavior)
    (f : GoString) (st : ScanState) :
    (processPair cfg env tb f st).1.invocations = st.invocations ++ [f] := by
  simp only [processPair]
  split
  · split
    · rfl
    · rw [cleanup_invocations]
  · rw [cleanup_invocations]
  · split
    · rfl
    · split
      · rfl
      · rw [cleanup_invocations]
  · rfl
  · rfl

theorem processPair_stdout (cfg : Config) (env : FsEnv) (tb : ToolBehavior)
    (f : GoString) (st : ScanState) :
    (processPair cfg env tb f st).1.stdout = st.stdout ++ [checkLine cfg f] := by
  simp only [processPair]
  split
  · split
    · rfl
    · rw [cleanup_stdout]
  · rw [cleanup_stdout]
  · split
    · rfl
    · split
      · rfl
      · rw [cleanup_stdout]
  · rfl
  · rfl

theorem processPair_dims_mem {cfg : Config} {env : FsEnv} {tb : ToolBehavior}
    {f x : GoString} {st : ScanState}
    (hx : x ∈ (processPair cfg env tb f st).1.diffDimensions) :
    x ∈ st.diffDimensions ∨ x = f := by
  revert hx
  simp only [processPair]
  split
  · split
    · exact fun hx => Or.inl hx
    · rw [cleanup_diffDimensions]
      exact fun hx => Or.inl hx
  · rw [cleanup_diffDimensions]
    intro hx
    rcases List.mem_append.mp hx with h | h
    · exact Or.inl h
    · exact Or.inr (List.mem_singleton.mp h)
  · split
    · exact fun hx => Or.inl hx
    · split
      · exact fun hx => Or.inl hx
      · rw [cleanup_diffDimensions]
        exact fun hx => Or.inl hx
  · exact fun hx => Or.inl hx
  · exact fun hx => Or.inl hx

theorem processPair_pixels_mem {cfg : Config} {env : FsEnv} {tb : ToolBehavior}
    {f : GoString} {dp : DiffPixel} {st : ScanState}
    (hdp : dp ∈ (processPair cfg env tb f st).1.diffPixels) :
    dp ∈ st.diffPixels ∨ dp.file = f := by
  revert hdp
  simp only [processPair]
  split
  · split
    · exact fun h => Or.inl h
    · rw [cleanup_diffPixels]
      exact fun h => Or.inl h
  · rw [cleanup_diffPixels]
    exact fun h => Or.inl h
  · split
    · exact fun h => Or.inl h
    · rename_i dp2 hdp2
      split
      · intro h
        rcases List.mem_append.mp h with h | h
        · exact Or.inl h
        · exact Or.inr ((List.mem_singleton.mp h) ▸ newDiffPixel_file hdp2)
      · rw [cleanup_diffPixels]
        intro h
        rcases List.mem_append.mp h with h | h
        · exact Or.inl h
        · exact Or.inr ((List.mem_singleton.mp h) ▸ newDiffPixel_file hdp2)
  · exact fun h => Or.inl h
  · exact fun h => Or.inl h

/-! ### Helper lemmas: the scan loop -/

theorem runScan_mem_generic {α : Type} (proj : ScanState → List α)
    (Q : α → GoString → Prop) (cfg : Config) (env : FsEnv)
    (toolFor : GoString → ToolBehavior) (targetHas : GoString → Bool)
    (hstep : ∀ tb f st x, x ∈ proj (processPair cfg env tb f st).1 →
      x ∈ proj st ∨ Q x f) :
    ∀ (files : List GoString) (st : ScanState) (x : α),
      x ∈ proj (runScan cfg env toolFor targetHas files st).1 →
      x ∈ proj st ∨
        ∃ f, f ∈ files ∧ comparedPred targetHas f = true ∧ Q x f := by
  intro files
  induction files with
  | nil =>
    intro st x hx
    exact Or.inl (by simpa [runScan] using hx)
  | cons f rest ih =>
    intro st x hx
    simp only [runScan] at hx
    by_cases hs : goHasSuffix (gs ".png") f = false
    · rw [if_pos hs] at hx
      rcases ih st x hx with h | ⟨g, hg, hp, hq⟩
      · exact Or.inl h
      · exact Or.inr ⟨g, List.mem_cons_of_mem f hg, hp, hq⟩
    · rw [if_neg hs] at hx
      have hs' : goHasSuffix (gs ".png") f = true := by simpa using hs
      by_cases ht : targetHas f = false
      · rw [if_pos ht] at hx
        rcases ih st x hx with h | ⟨g, hg, hp, hq⟩
        · exact Or.inl h
        · exact Or.inr ⟨g, List.mem_cons_of_mem f hg, hp, hq⟩
      · rw [if_neg ht] at hx
        have ht' : targetHas f = true := by simpa using ht
        have hpred : comparedPred targetHas f = true := by
          simp [comparedPred, hs', ht']
        cases hpp : processPair cfg env (toolFor f) f st with
        | mk st1 e =>
          rw [hpp] at hx
          cases e with
          | none =>
            dsimp only at hx
            rcases ih st1 x hx with h | ⟨g, hg, hp, hq⟩
            · have := hstep (toolFor f) f st x (by rw [hpp]; exact h)
              rcases this with h' | hq'
              · exact Or.inl h'
              · exact Or.inr ⟨f, List.mem_cons_self f rest, hpred, hq'⟩
            · exact Or.inr ⟨g, List.mem_cons_of_mem f hg, hp, hq⟩
          | some e' =>
            dsimp only at hx
            have := hstep (toolFor f) f st x (by rw [hpp]; exact hx)
            rcases this with h' | hq'
            · exact Or.inl h'
            · exact Or.inr ⟨f, List.mem_cons_self f rest, hpred, hq'⟩

theorem runScan_invocations (cfg : Config) (env : FsEnv)
    (toolFor : GoString → ToolBehavior) (targetHas : GoString → Bool) :
    ∀ (files : List GoString) (st : ScanState),
      (runScan cfg env toolFor targetHas files st).2 = none →
      (runScan cfg env toolFor targetHas files st).1.invocations =
        st.invocations ++ files.filter (comparedPred targetHas) := by
  intro files
  induction files with
  | nil =>
    intro st _
    simp [runScan]
  | cons f rest ih =>
    intro st h
    simp only [runScan] at h ⊢
    by_cases hs : goHasSuffix (gs ".png") f = false
    · rw [if_pos hs] at h ⊢
      rw [ih st h, List.filter_cons]
      have : comparedPred targetHas f = false := by simp [comparedPred, hs]
      simp [this]
    · rw [if_neg hs] at h ⊢
      have hs' : goHasSuffix (gs ".png") f = true := by simpa using hs
      by_cases ht : targetHas f = false
      · rw [if_pos ht] at h ⊢
        rw [ih st h, List.filter_cons]
        have : comparedPred targetHas f = false := by simp [comparedPred, ht]
        simp [this]
      · rw [if_neg ht] at h ⊢
        have ht' : targetHas f = true := by simpa using ht
        have hpred : comparedPred targetHas f = true := by
          simp [comparedPred, hs', ht']
        cases hpp : processPair cfg env (toolFor f) f st with
        | mk st1 e =>
          rw [hpp] at h
          cases e with
          | none =>
            dsimp only at h ⊢
            rw [ih st1 h]
            have hinv := processPair_invocations cfg env (toolFor f) f st
            rw [hpp] at hinv
            rw [hinv, List.filter_cons, if_pos hpred]
            simp
          | some e' =>
            dsimp only at h
            exact absurd h (by simp)

theorem runScan_invocations_mem {cfg : Config} {env : FsEnv}
    {toolFor : GoString → ToolBehavior} {targetHas : GoString → Bool}
    {files : List GoString} {st : ScanState} {x : GoString}
    (hx : x ∈ (runScan cfg env toolFor targetHas files st).1.invocations) :
    x ∈ st.invocations ∨
      ∃ f, f ∈ files ∧ comparedPred targetHas f = true ∧ x = f :=
  runScan_mem_generic (fun s => s.invocations) (fun y f => y = f) cfg env
    toolFor targetHas
    (fun tb f st' y hy => by
      have hy2 : y ∈ (processPair cfg env tb f st').1.invocations := hy
      rw [processPair_invocations] at hy2
      rcases List.mem_append.mp hy2 with h | h
      · exact Or.inl h
      · exact Or.inr (List.mem_singleton.mp h))
    files st x hx

theorem runScan_dims_mem {cfg : Config} {env : FsEnv}
    {toolFor : GoString → ToolBehavior} {targetHas : GoString → Bool}
    {files : List GoString} {st : ScanState} {x : GoString}
    (hx : x ∈ (runScan cfg env toolFor targetHas files st).1.diffDimensions) :
    x ∈ st.diffDimensions ∨
      ∃ f, f ∈ files ∧ comparedPred targetHas f = true ∧ x = f :=
  runScan_mem_generic (fun s => s.diffDimensions) (fun y f => y = f) cfg env
    toolFor targetHas
    (fun _ _ _ _ hy => processPair_dims_mem hy)
    files st x hx

theorem runScan_pixels_mem {cfg : Config} {env : FsEnv}
    {toolFor : GoString → ToolBehavior} {targetHas : GoString → Bool}
    {files : List GoString} {st : ScanState} {dp : DiffPixel}
    (hdp : dp ∈ (runScan cfg env toolFor targetHas files st).1.diffPixels) :
    dp ∈ st.diffPixels ∨
      ∃ f, f ∈ files ∧ comparedPred targetHas f = true ∧ dp.file = f :=
  runScan_mem_generic (fun s => s.diffPixels) (fun y f => y.file = f) cfg env
    toolFor targetHas
    (fun _ _ _ _ hy => processPair_pixels_mem hy)
    files st dp hdp

theorem runScan_stdout_mem {cfg : Config} {env : FsEnv}
    {toolFor : GoString → ToolBehavior} {targetHas : GoString → Bool}
    {files : List GoString} {st : ScanState} {l : GoString}
    (hl : l ∈ (runScan cfg env toolFor targetHas files st).1.stdout) :
    l ∈ st.stdout ∨
      ∃ f, f ∈ files ∧ comparedPred targetHas f = true ∧ l = checkLine cfg f :=
  runScan_mem_generic (fun s => s.stdout) (fun y f => y = checkLine cfg f) cfg
    env toolFor targetHas
    (fun tb f st' y hy => by
      have hy2 : y ∈ (processPair cfg env tb f st').1.stdout := hy
      rw [processPair_stdout] at hy2
      rcases List.mem_append.mp hy2 with h | h
      · exact Or.inl h
      · exact Or.inr (List.mem_singleton.mp h))
    files st l hl

/-! ### Helper lemmas: validate, runMain and mainOutput -/

theorem validate_none_iff (venv : ValidateEnv) (cfg : Config) :
    validate venv cfg = none ↔
      venv.dockerFound = true ∧ venv.parseFloatOk cfg.threshold = true ∧
        venv.statIsDir cfg.srcDir = some true ∧
        venv.statIsDir cfg.targetDir = some true := by
  unfold validate
  cases hd : venv.dockerFound
  · simp [hd]
  · cases hp : venv.parseFloatOk cfg.threshold
    · simp [hd, hp]
    · cases hs : venv.statIsDir cfg.srcDir with
      | none => simp [hd, hp, hs]
      | some b =>
        cases b
        · simp [hd, hp, hs]
        · cases ht : venv.statIsDir cfg.targetDir with
          | none => simp [hd, hp, hs, ht]
          | some b2 => cases b2 <;> simp [hd, hp, hs, ht]

theorem validate_isSome_of_parseFail {venv : ValidateEnv} {cfg : Config}
    (h : venv.parseFloatOk cfg.threshold = false) :
    (validate venv cfg).isSome = true := by
  unfold validate
  cases hd : venv.dockerFound <;> simp [hd, h]

theorem runMain_eq_of_validate_some {venv : ValidateEnv} {env : FsEnv}
    {toolFor : GoString → ToolBehavior} {targetHas : GoString → Bool}
    {listing : Option (List GoString)} {fs0 : List GoString}
    {args : List GoString} {e : Fatal}
    (h : validate venv (parseArgs args) = some e) :
    runMain venv env toolFor targetHas listing fs0 args =
      (initState fs0, some e) := by
  simp only [runMain]
  rw [h]

theorem runMain_stdout_mem {venv : ValidateEnv} {env : FsEnv}
    {toolFor : GoString → ToolBehavior} {targetHas : GoString → Bool}
    {listing : Option (List GoString)} {fs0 : List GoString}
    {args : List GoString} {l : GoString}
    (hl : l ∈ (runMain venv env toolFor targetHas listing fs0 args).1.stdout) :
    ∃ f, l = checkLine (parseArgs args) f := by
  simp only [runMain] at hl
  split at hl
  · simp [initState] at hl
  · split at hl
    · simp [initState] at hl
    · split at hl
      · simp [initState] at hl
      · rcases runScan_stdout_mem hl with h | ⟨f, _, _, hf⟩
        · simp [initState] at h
        · exact ⟨f, hf⟩

theorem runMain_dims_png {venv : ValidateEnv} {env : FsEnv}
    {toolFor : GoString → ToolBehavior} {targetHas : GoString → Bool}
    {listing : Option (List GoString)} {fs0 : List GoString}
    {args : List GoString} {x : GoString}
    (hx : x ∈ (runMain venv env toolFor targetHas listing fs0 args).1.diffDimensions) :
    goHasSuffix (gs ".png") x = true := by
  simp only [runMain] at hx
  split at hx
  · simp [initState] at hx
  · split at hx
    · simp [initState] at hx
    · split at hx
      · simp [initState] at hx
      · rcases runScan_dims_mem hx with h | ⟨f, _, hp, hf⟩
        · simp [initState] at h
        · rw [hf]
          have hp2 : goHasSuffix (gs ".png") f = true ∧ targetHas f = true := by
            simpa [comparedPred] using hp
          exact hp2.1

theorem dimHeader_ne_pixRow (dp : DiffPixel) : dimHeader ≠ pixRow dp := by
  intro h
  have htab : '\t' ∈ pixRow dp := by
    unfold pixRow
    exact List.mem_append.mpr (Or.inr (List.mem_cons_self _ _))
  rw [← h] at htab
  exact absurd htab (by decide)

theorem pixHeader_ne_pixRow (dp : DiffPixel) : pixHeader ≠ pixRow dp := by
  intro h
  have htab : '\t' ∈ pixRow dp := by
    unfold pixRow
    exact List.mem_append.mpr (Or.inr (List.mem_cons_self _ _))
  rw [← h] at htab
  exact absurd htab (by decide)

theorem mainOutput_of_fatal {venv : ValidateEnv} {env : FsEnv}
    {toolFor : GoString → ToolBehavior} {targetHas : GoString → Bool}
    {listing : Option (List GoString)} {fs0 : List GoString}
    {args : List GoString} {e : Fatal}
    (h : (mainOutput venv env toolFor targetHas listing fs0 args).2 = some e) :
    (mainOutput venv env toolFor targetHas listing fs0 args).1 =
      (runMain venv env toolFor targetHas listing fs0 args).1.stdout := by
  unfold mainOutput at h ⊢
  split at h
  · exact absurd h (by simp)
  · rename_i st e' heq
    rw [heq]

theorem mainOutput_of_ok {venv : ValidateEnv} {env : FsEnv}
    {toolFor : GoString → ToolBehavior} {targetHas : GoString → Bool}
    {listing : Option (List GoString)} {fs0 : List GoString}
    {args : List GoString}
    (h : (mainOutput venv env toolFor targetHas listing fs0 args).2 = none) :
    (mainOutput venv env toolFor targetHas listing fs0 args).1 =
      (runMain venv env toolFor targetHas listing fs0 args).1.stdout ++
        renderReport
          (runMain venv env toolFor targetHas listing fs0 args).1.diffDimensions
          (runMain venv env toolFor targetHas listing fs0 args).1.diffPixels := by
  unfold mainOutput at h ⊢
  split at h
  · rename_i st heq
    rw [heq]
  · exact absurd h (by simp)

/-! ### Helper lemmas: goSplit -/

theorem goSplit_ne_nil (sep : Char) (s : GoString) : goSplit sep s ≠ [] := by
  induction s with
  | nil => simp [goSplit]
  | cons c cs ih =>
    simp only [goSplit]
    cases hgs : goSplit sep cs with
    | nil => simp
    | cons h t => by_cases hcd : c = sep <;> simp [hcd]

theorem goSplit_not_mem {sep : Char} {s : GoString} (h : sep ∉ s) :
    goSplit sep s = [s] := by
  induction s with
  | nil => rfl
  | cons c cs ih =>
    have hc : ¬(c = sep) := fun hh => h (hh ▸ List.mem_cons_self c cs)
    have hcs : sep ∉ cs := fun hh => h (List.mem_cons_of_mem c hh)
    simp only [goSplit, ih hcs]
    simp [hc]

theorem goSplit_append {sep : Char} {a : GoString} (b : GoString)
    (h : sep ∉ a) : goSplit sep (a ++ sep :: b) = a :: goSplit sep b := by
  induction a with
  | nil =>
    simp only [List.nil_append, goSplit]
    cases hgs : goSplit sep b with
    | nil => exact absurd hgs (goSplit_ne_nil sep b)
    | cons hh tt => simp
  | cons c cs ih =>
    have hc : ¬(c = sep) := fun hh => h (hh ▸ List.mem_cons_self c cs)
    have hcs : sep ∉ cs := fun hh => h (List.mem_cons_of_mem c hh)
    have hstep : goSplit sep (c :: (cs ++ sep :: b)) =
        match goSplit sep (cs ++ sep :: b) with
        | [] => [[]]
        | hd :: t => if c = sep then [] :: hd :: t else (c :: hd) :: t := rfl
    rw [List.cons_append, hstep, ih hcs]
    simp [hc]

theorem get?_cons_one {α : Type} (a b : α) (l : List α) :
    (a :: b :: l).get? 1 = some b := rfl

theorem get?_cons_two {α : Type} (a b c : α) (l : List α) :
    (a :: b :: c :: l).get? 2 = some c := rfl

theorem newDiffPixel_of_lines {fileName out : GoString}
    {header line1 line2 : GoString} {tail : List GoString}
    (hsplit : goSplit '\n' out = header :: line1 :: line2 :: tail)
    {l1 v1 l2 v2 : GoString}
    (h1 : line1 = l1 ++ ':' :: v1) (hc1 : ':' ∉ l1) (hd1 : ':' ∉ v1)
    (h2 : line2 = l2 ++ ':' :: v2) (hc2 : ':' ∉ l2) (hd2 : ':' ∉ v2) :
    newDiffPixel fileName out =
      some { file := fileName, pixels := goTrimSpace v1,
             error := goTrimSpace v2 } := by
  simp only [newDiffPixel, hsplit]
  rw [get?_cons_one, get?_cons_two]
  simp only
  rw [h1, h2, goSplit_append v1 hc1, goSplit_not_mem hd1,
    goSplit_append v2 hc2, goSplit_not_mem hd2]
  rw [get?_cons_one, get?_cons_one]

/-! ### Claim theorems -/

/-- Claim C1: the CLI is claimed to take threshold, source directory and
target directory from positional arguments 0, 1 and 2, with defaults for
empty arguments, the target directory depending only on the third
argument.  The source instead reads `flag.Arg(1)` for the target directory
(`pixelmatch-dirs.go:74`), contradicting its own usage text
(`THRESHOLD SRC_DIR TARGET_DIR`): with arguments `["0.015", "a", "b"]` the
target directory becomes `"a"`, not `"b"`.  This theorem evaluates the
embedded parser at that failing input; the defaults for absent arguments
do behave as documented. -/
theorem c1_targetDir_positional_bug :
    (parseArgs [gs "0.015", gs "a", gs "b"]).targetDir = gs "a" ∧
    (parseArgs [gs "0.015", gs "a", gs "b"]).targetDir ≠ gs "b" ∧
    parseArgs [] =
      { threshold := defaultThreshold, srcDir := defaultSrcDir,
        targetDir := defaultTargetDir } := by decide

/-- Claim C5: on captured output whose second and third newline-separated
lines are colon-delimited label:value pairs, the parser returns the
whitespace-trimmed value after the first colon of the second line as the
pixel count and of the third line as the error rate. -/
theorem c5_parser_extracts_values (fileName header l1 v1 l2 v2 : GoString)
    (rest : GoString)
    (hh : '\n' ∉ header) (hl1 : '\n' ∉ l1) (hv1 : '\n' ∉ v1)
    (hl2 : '\n' ∉ l2) (hv2 : '\n' ∉ v2)
    (hc1 : ':' ∉ l1) (hd1 : ':' ∉ v1) (hc2 : ':' ∉ l2) (hd2 : ':' ∉ v2) :
    newDiffPixel fileName
        (header ++ '\n' :: ((l1 ++ ':' :: v1) ++ '\n' ::
          ((l2 ++ ':' :: v2) ++ '\n' :: rest))) =
      some { file := fileName, pixels := goTrimSpace v1,
             error := goTrimSpace v2 } := by
  have hline1 : '\n' ∉ (l1 ++ ':' :: v1) := by
    intro hm
    rcases List.mem_append.mp hm with hm | hm
    · exact hl1 hm
    · rcases List.mem_cons.mp hm with hm | hm
      · exact absurd hm (by decide)
      · exact hv1 hm
  have hline2 : '\n' ∉ (l2 ++ ':' :: v2) := by
    intro hm
    rcases List.mem_append.mp hm with hm | hm
    · exact hl2 hm
    · rcases List.mem_cons.mp hm with hm | hm
      · exact absurd hm (by decide)
      · exact hv2 hm
  have hsplit : goSplit '\n'
      (header ++ '\n' :: ((l1 ++ ':' :: v1) ++ '\n' ::
        ((l2 ++ ':' :: v2) ++ '\n' :: rest))) =
      header :: (l1 ++ ':' :: v1) :: (l2 ++ ':' :: v2) ::
        goSplit '\n' rest := by
    rw [goSplit_append _ hh, goSplit_append _ hline1, goSplit_append _ hline2]
  exact newDiffPixel_of_lines hsplit rfl hc1 hd1 rfl hc2 hd2

/-- Witness for claim C5: the spec's own example; parsing
`"header\npixels: 1234\nerror: 0.042\n"` yields pixel count `"1234"` and
error rate `"0.042"`, whitespace-trimmed. -/
theorem c5_parser_extracts_values_witness :
    newDiffPixel (gs "a.png") (gs "header\npixels: 1234\nerror: 0.042\n") =
      some { file := gs "a.png", pixels := gs "1234", error := gs "0.042" } := by
  have h := c5_parser_extracts_values (gs "a.png") (gs "header") (gs "pixels")
    (gs " 1234") (gs "error") (gs " 0.042") []
    (by decide) (by decide) (by decide) (by decide) (by decide)
    (by decide) (by decide) (by decide) (by decide)
  exact h

/-- Claim C6: the pixel-mismatch parser is partial: on captured text with
fewer than three newline-separated lines, or whose second or third line
has no colon, the fixed-position indexing is out of bounds, which the
total embedding maps to `none`; on well-formed output the error branch is
not taken. -/
theorem c6_parser_is_partial :
    newDiffPixel (gs "a.png") (gs "short") = none ∧
    newDiffPixel (gs "a.png") (gs "a\nb\nc\n") = none ∧
    newDiffPixel (gs "a.png") (gs "a\nx:1\ny\n") = none ∧
    newDiffPixel (gs "a.png") (gs "header\npixels: 1234\nerror: 0.042\n") ≠
      none := by decide

theorem processPair_shape (cfg : Config) (env : FsEnv) (tb : ToolBehavior)
    (f : GoString) (st : ScanState) :
    (∃ stm, processPair cfg env tb f st = cleanup env f stm) ∨
      (processPair cfg env tb f st).2.isSome = true := by
  simp only [processPair]
  split
  · split
    · right; rfl
    · left; exact ⟨_, rfl⟩
  · left; exact ⟨_, rfl⟩
  · split
    · right; rfl
    · split
      · right; rfl
      · left; exact ⟨_, rfl⟩
  · right; rfl
  · right; rfl

/-- Claim C2: for every comparison request processed to a non-fatal
per-file outcome, both transient copies are gone from the filesystem
afterwards, on every outcome branch; and a failing removal of either
transient copy (`removeFails`) makes a non-fatal outcome impossible, i.e.
the process terminates fatally. -/
theorem c2_transient_copies_removed (cfg : Config) (env : FsEnv)
    (tb : ToolBehavior) (f : GoString) (st : ScanState)
    (h : (processPair cfg env tb f st).2 = none) :
    tmpSrcPath f ∉ (processPair cfg env tb f st).1.fs ∧
      tmpTargetPath f ∉ (processPair cfg env tb f st).1.fs ∧
      env.removeFails (tmpSrcPath f) = false ∧
      env.removeFails (tmpTargetPath f) = false := by
  rcases processPair_shape cfg env tb f st with ⟨stm, heq⟩ | hsome
  · rw [heq] at h ⊢
    exact cleanup_ok h
  · rw [h] at hsome
    simp at hsome

/-- Witness for claim C2: a concrete successful exit-0 pair, after which
neither transient copy exists and no removal failure occurred. -/
theorem c2_transient_copies_removed_witness :
    tmpSrcPath (gs "a.png") ∉
        (processPair (parseArgs []) envOk tbIdentical (gs "a.png")
          (initState [])).1.fs ∧
      tmpTargetPath (gs "a.png") ∉
        (processPair (parseArgs []) envOk tbIdentical (gs "a.png")
          (initState [])).1.fs ∧
      envOk.removeFails (tmpSrcPath (gs "a.png")) = false ∧
      envOk.removeFails (tmpTargetPath (gs "a.png")) = false :=
  c2_transient_copies_removed (parseArgs []) envOk tbIdentical (gs "a.png")
    (initState []) (by decide)

theorem osRemove_none_of_not_mem {env : FsEnv} {p : GoString}
    {fs : List GoString} (h : p ∉ fs) : osRemove env p fs = none := by
  simp [osRemove, h]

/-- Claim C3 (amended): when the tool exits 0 the pair is classified
Identical — nothing is appended to either mismatch list — and the program
unconditionally removes the transient diff path: on a non-fatal outcome no
diff artifact remains there, and if the artifact was written (and the OS
rejects no removal) processing continues; but if no artifact was written,
`os.Remove` fails and the process aborts fatally instead of continuing
(`pixelmatch-dirs.go:137-141`). -/
theorem c3_exit_zero_behaviour (cfg : Config) (env : FsEnv)
    (tb : ToolBehavior) (f : GoString) (st : ScanState)
    (h0 : tb.exit = some 0) :
    ((processPair cfg env tb f st).1.diffDimensions = st.diffDimensions ∧
      (processPair cfg env tb f st).1.diffPixels = st.diffPixels) ∧
    ((processPair cfg env tb f st).2 = none →
      diffTmpPath f ∉ (processPair cfg env tb f st).1.fs) ∧
    (tb.writesDiff = true → env.removeFails (diffTmpPath f) = false →
      env.removeFails (tmpSrcPath f) = false →
      env.removeFails (tmpTargetPath f) = false →
      (processPair cfg env tb f st).2 = none) ∧
    (tb.writesDiff = false → diffTmpPath f ∉ st.fs →
      (processPair cfg env tb f st).2 = some Fatal.fileRemove) := by
  refine ⟨⟨?_, ?_⟩, ?_, ?_, ?_⟩
  · simp only [processPair, h0]
    split
    · rfl
    · rw [cleanup_diffDimensions]
  · simp only [processPair, h0]
    split
    · rfl
    · rw [cleanup_diffPixels]
  · intro hnone
    simp only [processPair, h0] at hnone ⊢
    split at hnone
    · simp at hnone
    · rename_i fs2 heq
      intro hmem
      exact not_mem_of_osRemove heq (cleanup_fs_sub hmem)
  · intro hw hrf hrs hrt
    simp only [processPair, h0, hw, eq_self_iff_true, if_true]
    rw [osRemove_some_of hrf (self_mem_fsWrite _ _)]
    have hmemS : tmpSrcPath f ∈
        (fsWrite (diffTmpPath f)
          (fsWrite (tmpTargetPath f)
            (fsWrite (tmpSrcPath f) st.fs))).filter
          (fun q => q ≠ diffTmpPath f) := by
      apply List.mem_filter.mpr
      refine ⟨?_, by simp [(diffTmp_ne_tmpSrc f f).symm]⟩
      exact mem_fsWrite.mpr (Or.inr (mem_fsWrite.mpr
        (Or.inr (self_mem_fsWrite _ _))))
    have hmemT : tmpTargetPath f ∈
        (fsWrite (diffTmpPath f)
          (fsWrite (tmpTargetPath f)
            (fsWrite (tmpSrcPath f) st.fs))).filter
          (fun q => q ≠ diffTmpPath f) := by
      apply List.mem_filter.mpr
      refine ⟨?_, by simp [(diffTmp_ne_tmpTarget f f).symm]⟩
      exact mem_fsWrite.mpr (Or.inr (self_mem_fsWrite _ _))
    exact cleanup_ok_of hrs hrt hmemS hmemT
  · intro hw hnm
    simp only [processPair, h0, hw, Bool.false_eq_true, if_false]
    have hnot : diffTmpPath f ∉
        fsWrite (tmpTargetPath f) (fsWrite (tmpSrcPath f) st.fs) := by
      intro hmem
      rcases mem_fsWrite.mp hmem with h | hmem2
      · exact diffTmp_ne_tmpTarget f f h
      · rcases mem_fsWrite.mp hmem2 with h | hmem3
        · exact diffTmp_ne_tmpSrc f f h
        · exact hnm hmem3
    rw [osRemove_none_of_not_mem hnot]

/-- Counterexample to claim C3 as stated: with the tool exiting 0 and no
diff artifact written, the run does not continue with the next pair — the
unconditional `os.Remove` of the transient diff path fails and the process
aborts fatally, so the second file is never compared. -/
theorem c3_continue_counterexample :
    (runScan (parseArgs []) envOk (fun _ => tbIdenticalNoDiff)
        (fun _ => true) [gs "a.png", gs "b.png"] (initState [])).2 =
      some Fatal.fileRemove ∧
    (runScan (parseArgs []) envOk (fun _ => tbIdenticalNoDiff)
        (fun _ => true) [gs "a.png", gs "b.png"] (initState [])).1.invocations =
      [gs "a.png"] := by decide

/-- Witness for claim C3 (amended): a concrete exit-0 pair whose diff
artifact was written: the outcome is non-fatal and the mismatch lists are
untouched. -/
theorem c3_exit_zero_behaviour_witness :
    (processPair (parseArgs []) envOk tbIdentical (gs "a.png")
        (initState [])).2 = none ∧
    (processPair (parseArgs []) envOk tbIdentical (gs "a.png")
        (initState [])).1.diffDimensions = (initState []).diffDimensions := by
  have h := c3_exit_zero_behaviour (parseArgs []) envOk tbIdentical
    (gs "a.png") (initState []) rfl
  exact ⟨h.2.2.1 rfl rfl rfl rfl, h.1.1⟩

/-- Claim C4: when the tool exits 66, a pixel-mismatch record for the file
is appended at the end of the pixel-mismatch list (scan order), and the
diff artifact is moved from the transient path `tmp/diff-<name>` to the
stable name `diff-<name>` in the working directory: after a non-fatal
outcome the stable name exists and the transient path does not, so the
outcome corresponds to exactly one artifact at the stable name. -/
theorem c4_exit66_renames_artifact (cfg : Config) (env : FsEnv)
    (tb : ToolBehavior) (f : GoString) (st : ScanState)
    (h66 : tb.exit = some 66)
    (hok : (processPair cfg env tb f st).2 = none) :
    ∃ dp, newDiffPixel f tb.output = some dp ∧
      (processPair cfg env tb f st).1.diffPixels = st.diffPixels ++ [dp] ∧
      dp.file = f ∧
      diffStableName f ∈ (processPair cfg env tb f st).1.fs ∧
      diffTmpPath f ∉ (processPair cfg env tb f st).1.fs := by
  simp only [processPair, h66] at hok ⊢
  split at hok
  · simp at hok
  · rename_i dp heqnd
    split at hok
    · simp at hok
    · rename_i fs2 heqrn
      refine ⟨dp, heqnd, ?_, newDiffPixel_file heqnd, ?_, ?_⟩
      · rw [cleanup_diffPixels]
      · rcases osRename_eq_some heqrn with ⟨-, -, rfl⟩
        refine cleanup_fs_mem (self_mem_fsWrite _ _)
          (diffStable_ne_tmpSrc f f) (diffStable_ne_tmpTarget f f) hok
      · intro hmem
        have hmem2 := cleanup_fs_sub hmem
        rcases osRename_eq_some heqrn with ⟨-, -, heqfs⟩
        rw [heqfs] at hmem2
        rcases mem_fsWrite.mp hmem2 with h | hmem3
        · exact diffStable_ne_diffTmp f f h.symm
        · have := (List.mem_filter.mp hmem3).2
          simp at this

/-- Witness for claim C4: a concrete exit-66 pair with well-formed output:
the record is appended and the artifact ends up at the stable name only. -/
theorem c4_exit66_renames_artifact_witness :
    ∃ dp, newDiffPixel (gs "a.png") tbPix.output = some dp ∧
      (processPair (parseArgs []) envOk tbPix (gs "a.png")
          (initState [])).1.diffPixels = (initState []).diffPixels ++ [dp] ∧
      dp.file = gs "a.png" ∧
      diffStableName (gs "a.png") ∈
        (processPair (parseArgs []) envOk tbPix (gs "a.png")
          (initState [])).1.fs ∧
      diffTmpPath (gs "a.png") ∉
        (processPair (parseArgs []) envOk tbPix (gs "a.png")
          (initState [])).1.fs :=
  c4_exit66_renames_artifact (parseArgs []) envOk tbPix (gs "a.png")
    (initState []) rfl (by decide)

/-- Claim C7: a comparator subprocess is invoked for a source-directory
entry exactly when its name ends in `.png` and a same-named target file
exists: on a completed scan the invocation sequence is precisely the
listing filtered by that condition, and in every scan (completed or
aborted) only qualifying entries are invoked or appear in either mismatch
list. -/
theorem c7_pairing_filter (cfg : Config) (env : FsEnv)
    (toolFor : GoString → ToolBehavior) (targetHas : GoString → Bool)
    (files : List GoString) (fs0 : List GoString) :
    ((runScan cfg env toolFor targetHas files (initState fs0)).2 = none →
      (runScan cfg env toolFor targetHas files (initState fs0)).1.invocations =
        files.filter (comparedPred targetHas)) ∧
    (∀ x, x ∈ (runScan cfg env toolFor targetHas files
        (initState fs0)).1.invocations →
      x ∈ files ∧ comparedPred targetHas x = true) ∧
    (∀ x, x ∈ (runScan cfg env toolFor targetHas files
        (initState fs0)).1.diffDimensions →
      x ∈ files ∧ comparedPred targetHas x = true) ∧
    (∀ dp, dp ∈ (runScan cfg env toolFor targetHas files
        (initState fs0)).1.diffPixels →
      dp.file ∈ files ∧ comparedPred targetHas dp.file = true) := by
  refine ⟨?_, ?_, ?_, ?_⟩
  · intro h
    have := runScan_invocations cfg env toolFor targetHas files (initState fs0) h
    simpa [initState] using this
  · intro x hx
    rcases runScan_invocations_mem hx with h | ⟨g, hg, hp, rfl⟩
    · simp [initState] at h
    · exact ⟨hg, hp⟩
  · intro x hx
    rcases runScan_dims_mem hx with h | ⟨g, hg, hp, rfl⟩
    · simp [initState] at h
    · exact ⟨hg, hp⟩
  · intro dp hdp
    rcases runScan_pixels_mem hdp with h | ⟨g, hg, hp, hf⟩
    · simp [initState] at h
    · rw [hf]
      exact ⟨hg, hp⟩

/-- Witness for claim C7: a two-file listing in which only `a.png` has a
target counterpart: exactly `a.png` is invoked, and the skipped `b.png`
appears in no list. -/
theorem c7_pairing_filter_witness :
    (runScan (parseArgs []) envOk (fun _ => tbIdentical)
        (fun g => decide (g = gs "a.png")) [gs "a.png", gs "b.png"]
        (initState [])).1.invocations =
      List.filter (comparedPred (fun g => decide (g = gs "a.png")))
        [gs "a.png", gs "b.png"] ∧
    (gs "a.png") ∈ [gs "a.png", gs "b.png"] ∧
      comparedPred (fun g => decide (g = gs "a.png")) (gs "a.png") = true := by
  have h := c7_pairing_filter (parseArgs []) envOk (fun _ => tbIdentical)
    (fun g => decide (g = gs "a.png")) [gs "a.png", gs "b.png"] []
  refine ⟨h.1 (by decide), ?_⟩
  refine h.2.1 (gs "a.png") ?_
  rw [h.1 (by decide)]
  decide

/-- Claim C8: when the threshold does not parse as a float, the program
aborts with a fatal status before any scanning — no progress line, no
comparator invocation; and validation succeeds exactly when docker is
found, the threshold parses, and both directories are directories: no
condition on the numeric value, so membership in the range 0 to 1 is not
checked. -/
theorem c8_threshold_parse_abort (venv : ValidateEnv) (env : FsEnv)
    (toolFor : GoString → ToolBehavior) (targetHas : GoString → Bool)
    (listing : Option (List GoString)) (fs0 : List GoString)
    (args : List GoString)
    (h : venv.parseFloatOk (parseArgs args).threshold = false) :
    ((runMain venv env toolFor targetHas listing fs0 args).2.isSome = true ∧
      (runMain venv env toolFor targetHas listing fs0 args).1.invocations = [] ∧
      (runMain venv env toolFor targetHas listing fs0 args).1.stdout = []) ∧
    (∀ (venv2 : ValidateEnv) (cfg2 : Config),
      validate venv2 cfg2 = none ↔
        venv2.dockerFound = true ∧
          venv2.parseFloatOk cfg2.threshold = true ∧
          venv2.statIsDir cfg2.srcDir = some true ∧
          venv2.statIsDir cfg2.targetDir = some true) := by
  constructor
  · have hv := validate_isSome_of_parseFail h
    rcases Option.isSome_iff_exists.mp hv with ⟨e, he⟩
    rw [runMain_eq_of_validate_some he]
    exact ⟨rfl, rfl, rfl⟩
  · exact fun venv2 cfg2 => validate_none_iff venv2 cfg2

/-- Witness for claim C8: with an environment whose float parser rejects
everything, the run over a one-file listing aborts with no invocation. -/
theorem c8_threshold_parse_abort_witness :
    (runMain venvNoParse envOk (fun _ => tbIdentical) (fun _ => true)
        (some [gs "a.png"]) [] [gs "not-a-number"]).2.isSome = true ∧
    (runMain venvNoParse envOk (fun _ => tbIdentical) (fun _ => true)
        (some [gs "a.png"]) [] [gs "not-a-number"]).1.invocations = [] := by
  have h := c8_threshold_parse_abort venvNoParse envOk (fun _ => tbIdentical)
    (fun _ => true) (some [gs "a.png"]) [] [gs "not-a-number"] rfl
  exact ⟨h.1.1, h.1.2.1⟩

/-- Claim C9: a comparator exit code other than 0, 65, 66 — or a launch
failure — is fatal for the whole run: the pair's step yields the
command-execution abort with neither mismatch list extended, and a fatal
run prints no report section at all (only progress lines reach standard
output). -/
theorem c9_unexpected_exit_fatal (cfg : Config) (env : FsEnv)
    (tb : ToolBehavior) (f : GoString) (st : ScanState)
    (venv : ValidateEnv) (env2 : FsEnv)
    (toolFor : GoString → ToolBehavior) (targetHas : GoString → Bool)
    (listing : Option (List GoString)) (fs0 : List GoString)
    (args : List GoString) (e : Fatal)
    (hbad : tb.exit = none ∨
      ∃ k, tb.exit = some k ∧ k ≠ 0 ∧ k ≠ 65 ∧ k ≠ 66)
    (hfatal : (mainOutput venv env2 toolFor targetHas listing fs0 args).2 =
      some e) :
    ((processPair cfg env tb f st).2 = some Fatal.cmdExec ∧
      (processPair cfg env tb f st).1.diffDimensions = st.diffDimensions ∧
      (processPair cfg env tb f st).1.diffPixels = st.diffPixels) ∧
    (dimHeader ∉ (mainOutput venv env2 toolFor targetHas listing fs0 args).1 ∧
      pixHeader ∉ (mainOutput venv env2 toolFor targetHas listing fs0 args).1) := by
  constructor
  · rcases hbad with hnone | ⟨k, hk, hk0, hk65, hk66⟩
    · refine ⟨?_, ?_, ?_⟩ <;> simp only [processPair, hnone]
    · refine ⟨?_, ?_, ?_⟩ <;> simp only [processPair, hk, hk0, hk65, hk66]
  · have hout := mainOutput_of_fatal hfatal
    rw [hout]
    constructor
    · intro hmem
      rcases runMain_stdout_mem hmem with ⟨g, hg⟩
      exact checkLine_ne_dimHeader _ g hg.symm
    · intro hmem
      rcases runMain_stdout_mem hmem with ⟨g, hg⟩
      exact checkLine_ne_pixHeader _ g hg.symm

/-- Witness for claim C9: a concrete exit-1 pair is the command-execution
abort, and the corresponding fatal run prints no report header. -/
theorem c9_unexpected_exit_fatal_witness :
    (processPair (parseArgs []) envOk tbBad (gs "a.png")
        (initState [])).2 = some Fatal.cmdExec ∧
    dimHeader ∉ (mainOutput venvOk envOk (fun _ => tbBad) (fun _ => true)
        (some [gs "a.png"]) [] []).1 := by
  have h := c9_unexpected_exit_fatal (parseArgs []) envOk tbBad (gs "a.png")
    (initState []) venvOk envOk (fun _ => tbBad) (fun _ => true)
    (some [gs "a.png"]) [] [] Fatal.cmdExec
    (Or.inr ⟨1, rfl, by decide, by decide, by decide⟩) (by decide)
  exact ⟨h.1.1, h.2.1⟩

theorem renderReport_eq (dims : List GoString) (pixels : List DiffPixel) :
    renderReport dims pixels =
      (if dims = [] then [] else dimHeader :: dims) ++
        (if pixels = [] then [] else pixHeader :: pixels.map pixRow) := by
  rcases dims with _ | ⟨d, ds⟩ <;> rcases pixels with _ | ⟨p, ps⟩ <;>
    simp [renderReport]

/-- Claim C10: after a completed scan, the output is the progress lines,
then the dimension-mismatch section (header plus one file name per line,
in accumulation order) exactly when that list is non-empty, then the
pixel-mismatch section (header plus one tab-separated row per record)
exactly when that list is non-empty; with both lists empty nothing beyond
the progress lines is printed. -/
theorem c10_report_sections (venv : ValidateEnv) (env : FsEnv)
    (toolFor : GoString → ToolBehavior) (targetHas : GoString → Bool)
    (listing : Option (List GoString)) (fs0 : List GoString)
    (args : List GoString)
    (h : (mainOutput venv env toolFor targetHas listing fs0 args).2 = none) :
    (mainOutput venv env toolFor targetHas listing fs0 args).1 =
      (runMain venv env toolFor targetHas listing fs0 args).1.stdout ++
        ((if (runMain venv env toolFor targetHas listing fs0
              args).1.diffDimensions = [] then []
          else dimHeader ::
            (runMain venv env toolFor targetHas listing fs0
              args).1.diffDimensions) ++
          (if (runMain venv env toolFor targetHas listing fs0
              args).1.diffPixels = [] then []
          else pixHeader ::
            ((runMain venv env toolFor targetHas listing fs0
              args).1.diffPixels.map pixRow))) ∧
    ((runMain venv env toolFor targetHas listing fs0 args).1.diffDimensions = [] →
      (runMain venv env toolFor targetHas listing fs0 args).1.diffPixels = [] →
      (mainOutput venv env toolFor targetHas listing fs0 args).1 =
        (runMain venv env toolFor targetHas listing fs0 args).1.stdout) ∧
    (dimHeader ∈ (mainOutput venv env toolFor targetHas listing fs0 args).1 ↔
      (runMain venv env toolFor targetHas listing fs0 args).1.diffDimensions ≠ []) ∧
    (pixHeader ∈ (mainOutput venv env toolFor targetHas listing fs0 args).1 ↔
      (runMain venv env toolFor targetHas listing fs0 args).1.diffPixels ≠ []) := by
  have hout := mainOutput_of_ok h
  rw [renderReport_eq] at hout
  refine ⟨hout, ?_, ?_, ?_⟩
  · intro hd hp
    rw [hout, hd, hp]
    simp
  · constructor
    · intro hmem hd
      rw [hout] at hmem
      rcases List.mem_append.mp hmem with hm | hm
      · rcases runMain_stdout_mem hm with ⟨g, hg⟩
        exact checkLine_ne_dimHeader _ g hg.symm
      · rcases List.mem_append.mp hm with hm2 | hm2
        · rw [if_pos hd] at hm2
          simp at hm2
        · by_cases hp : (runMain venv env toolFor targetHas listing fs0
              args).1.diffPixels = []
          · rw [if_pos hp] at hm2
            simp at hm2
          · rw [if_neg hp] at hm2
            rcases List.mem_cons.mp hm2 with hh | hh
            · exact absurd hh (by decide)
            · rcases List.mem_map.mp hh with ⟨dp, -, hdp⟩
              exact dimHeader_ne_pixRow dp hdp.symm
    · intro hd
      rw [hout, if_neg hd]
      exact List.mem_append.mpr (Or.inr (List.mem_append.mpr
        (Or.inl (List.mem_cons_self _ _))))
  · constructor
    · intro hmem hp
      rw [hout] at hmem
      rcases List.mem_append.mp hmem with hm | hm
      · rcases runMain_stdout_mem hm with ⟨g, hg⟩
        exact checkLine_ne_pixHeader _ g hg.symm
      · rcases List.mem_append.mp hm with hm2 | hm2
        · by_cases hd : (runMain venv env toolFor targetHas listing fs0
              args).1.diffDimensions = []
          · rw [if_pos hd] at hm2
            simp at hm2
          · rw [if_neg hd] at hm2
            rcases List.mem_cons.mp hm2 with hh | hh
            · exact absurd hh (by decide)
            · exact absurd (runMain_dims_png hh) (by decide)
        · rw [if_pos hp] at hm2
          simp at hm2
    · intro hp
      rw [hout, if_neg hp]
      exact List.mem_append.mpr (Or.inr (List.mem_append.mpr
        (Or.inr (List.mem_cons_self _ _))))

/-- Witness for claim C10: a completed two-file run producing one
dimension mismatch and one pixel mismatch prints both section headers. -/
theorem c10_report_sections_witness :
    (mainOutput venvOk envOk
        (fun g => if g = gs "a.png" then tbDim else tbPix) (fun _ => true)
        (some [gs "a.png", gs "b.png"]) [] []).2 = none ∧
    dimHeader ∈ (mainOutput venvOk envOk
        (fun g => if g = gs "a.png" then tbDim else tbPix) (fun _ => true)
        (some [gs "a.png", gs "b.png"]) [] []).1 ∧
    pixHeader ∈ (mainOutput venvOk envOk
        (fun g => if g = gs "a.png" then tbDim else tbPix) (fun _ => true)
        (some [gs "a.png", gs "b.png"]) [] []).1 := by
  have h := c10_report_sections venvOk envOk
    (fun g => if g = gs "a.png" then tbDim else tbPix) (fun _ => true)
    (some [gs "a.png", gs "b.png"]) [] [] (by decide)
  exact ⟨by decide, h.2.2.1.mpr (by decide), h.2.2.2.mpr (by decide)⟩
